import Mathlib

/-!
Verification development for the SPN core: varint codec and terminal message
framing, the DuplexFlowQueue credit-based flow control, the partially-blind
access-token handler, and bootstrap-hub URL parsing.

Bytes are modelled as `Nat` (values < 256 where relevant), Go byte slices and
strings as `List Nat` / `List Char`, Go pointers as `Option`, and fallible Go
functions as `Option`/`Except` results.  A Go runtime panic (nil-pointer
dereference, index out of range) is modelled as the `none` outcome of an
`Option (Except ..)` result type.
-/

namespace SPN

/-! ### Varint codec (Go encoding/binary unsigned varint, as used by
portbase/formats/varint) -/

/-- Encode a natural number as an unsigned base-128 varint, least significant
group first, continuation bit 0x80. -/
def encodeUvarint (n : Nat) : List Nat :=
  if h : n < 128 then [n]
  else (n % 128 + 128) :: encodeUvarint (n / 128)
decreasing_by
  exact Nat.div_lt_self (by omega) (by omega)

/-- Decode an unsigned base-128 varint from the front of a byte list, returning
the value and the remaining bytes. -/
def decodeUvarint : List Nat → Option (Nat × List Nat)
  | [] => none
  | b :: rest =>
    if b < 128 then some (b, rest)
    else
      match decodeUvarint rest with
      | some (v, r) => some (v * 128 + (b % 128), r)
      | none => none

/-- `varint.Pack32`: encode a uint32 value as a varint. -/
def Pack32 (n : Nat) : List Nat := encodeUvarint (n % 2 ^ 32)

/-- `varint.Pack64`: encode a uint64 value as a varint. -/
def Pack64 (n : Nat) : List Nat := encodeUvarint (n % 2 ^ 64)

/-- `container.GetNextN16`: consume a varint and require it to fit in 16 bits. -/
def GetNextN16 (c : List Nat) : Option (Nat × List Nat) :=
  match decodeUvarint c with
  | some (v, r) => if v < 2 ^ 16 then some (v, r) else none
  | none => none

/-- `container.GetNextN32`: consume a varint and require it to fit in 32 bits. -/
def GetNextN32 (c : List Nat) : Option (Nat × List Nat) :=
  match decodeUvarint c with
  | some (v, r) => if v < 2 ^ 32 then some (v, r) else none
  | none => none

theorem decodeUvarint_encodeUvarint (n : Nat) (rest : List Nat) :
    decodeUvarint (encodeUvarint n ++ rest) = some (n, rest) := by
  induction n using Nat.strong_induction_on with
  | _ n ih =>
    by_cases h : n < 128
    · rw [encodeUvarint]
      simp [h, decodeUvarint]
    · rw [encodeUvarint]
      simp only [h, dite_false, List.cons_append]
      rw [decodeUvarint]
      have hb : ¬ (n % 128 + 128 < 128) := by omega
      simp only [hb, if_false]
      rw [ih (n / 128) (Nat.div_lt_self (by omega) (by omega))]
      simp only [Option.some.injEq, Prod.mk.injEq]
      constructor
      · have h128 : (n % 128 + 128) % 128 = n % 128 := by omega
        rw [h128]
        omega
      · trivial

/-! ### Terminal message framing (AddIDType / ParseIDType) -/

/-- `MsgTypeInit`: establish a new terminal or run a new operation. -/
def MsgTypeInit : Nat := 1

/-- `MsgTypeData`: send data to a terminal or operation. -/
def MsgTypeData : Nat := 2

/-- `MsgTypeStop`: abandon a terminal or end an operation. -/
def MsgTypeStop : Nat := 3

/-- `AddIDType` prepends the ID and Type header to the message:
`c.Prepend(varint.Pack32(id | uint32(msgType)))`. -/
def AddIDType (c : List Nat) (id : Nat) (msgType : Nat) : List Nat :=
  Pack32 (id ||| msgType) ++ c

/-- `ParseIDType` reads the leading `ID|Type` varint and splits it into the
message type (low two bits) and the ID (the remaining bits). -/
def ParseIDType (c : List Nat) : Option (Nat × Nat × List Nat) :=
  match GetNextN32 c with
  | none => none
  | some (idType, rest) => some (idType - idType % 4, idType % 4, rest)

/-- Bitwise-or with a value occupying only the two low bits is plain addition
when the other operand has its two low bits clear. -/
theorem lor_of_mod_four (k t : Nat) (ht : t < 4) : (4 * k) ||| t = 4 * k + t := by
  apply Nat.eq_of_testBit_eq
  intro i
  rw [Nat.testBit_lor]
  apply Bool.eq_iff_iff.mpr
  simp only [Bool.or_eq_true, Nat.testBit_to_div_mod, decide_eq_true_eq]
  match i with
  | 0 =>
    simp only [pow_zero, Nat.div_one]
    omega
  | 1 =>
    simp only [pow_one]
    omega
  | (j+2) =>
    have e1 : 2 ^ (j + 2) = 4 * 2 ^ j := by ring
    have e2 : (4 * k + t) / 2 ^ (j + 2) = k / 2 ^ j := by
      rw [e1, ← Nat.div_div_eq_div_mul]
      congr 1
      omega
    have e3 : (4 * k) / 2 ^ (j + 2) = k / 2 ^ j := by
      rw [e1, ← Nat.div_div_eq_div_mul]
      congr 1
      omega
    have e4 : t / 2 ^ (j + 2) = 0 := by
      apply Nat.div_eq_of_lt
      calc t < 4 := ht
        _ ≤ 2 ^ (j + 2) := by
              rw [e1]
              exact Nat.le_mul_of_pos_right 4 (Nat.pos_pow_of_pos j (by omega))
    rw [e2, e3, e4]
    simp

/-! ### DuplexFlowQueue (terminal flow control)

The sequential state of one DFQ: the two atomic `int32` credit counters are
modelled as unbounded `Int` (the protocol caps a single space report at
65535 and queue capacities at 1000000, far from the `int32` range), the
bounded `recvQueue` channel as a list of containers together with its
capacity.  The signalling channels (`wakeSender`, `forceSpaceReport`) carry
no data; the nudges sent to them are returned as booleans where relevant. -/

structure DuplexFlowQueue where
  sendSpace : Int
  reportedSpace : Int
  recvQueue : List (List Nat)
  recvCap : Nat
  deriving DecidableEq, Repr

/-- Terminal-level error kinds reachable from the modelled DFQ entry points. -/
inductive TermError where
  | malformedData
  | queueOverflow
  deriving DecidableEq, Repr

namespace DuplexFlowQueue

/-- `int32(float32(cap(recvQueue)) * forceReportBelowPercent)` with
`forceReportBelowPercent = 0.75`; exact for all admissible capacities. -/
def forceReportThreshold (dfq : DuplexFlowQueue) : Int :=
  (3 * dfq.recvCap) / 4

/-- `addToSendSpace`: atomically add `n` to the send space (the non-blocking
`wakeSender` nudge carries no state). -/
def addToSendSpace (dfq : DuplexFlowQueue) (n : Int) : DuplexFlowQueue :=
  { dfq with sendSpace := dfq.sendSpace + n }

/-- `decrementReportedRecvSpace`: decrease the reported recv space by 1 and
report whether a space report should be forced. -/
def decrementReportedRecvSpace (dfq : DuplexFlowQueue) : Bool × DuplexFlowQueue :=
  let dfq' := { dfq with reportedSpace := dfq.reportedSpace - 1 }
  (dfq'.reportedSpace < dfq.forceReportThreshold, dfq')

/-- `Deliver` submits a container for receiving from upstream.  The container
argument is a Go pointer (`none` = nil); a delivered container is its byte
content.  Returns the error result (`none` = nil error) and the new state. -/
def Deliver (dfq : DuplexFlowQueue) (c : Option (List Nat)) :
    Option TermError × DuplexFlowQueue :=
  match c with
  | none => (some .malformedData, dfq)
  | some bytes =>
    match GetNextN16 bytes with
    | none => (some .malformedData, dfq)
    | some (addSpace, rest) =>
      let dfq1 := if 0 < addSpace then dfq.addToSendSpace addSpace else dfq
      if rest = [] then
        (none, dfq1)
      else if dfq1.recvQueue.length < dfq1.recvCap then
        let dfq2 := { dfq1 with recvQueue := dfq1.recvQueue ++ [rest] }
        (none, (dfq2.decrementReportedRecvSpace).2)
      else
        (some .queueOverflow, dfq1)

/-- `reportableRecvSpace`: how much free receive space can be reported to the
other end.  Returns the reported amount and the updated state. -/
def reportableRecvSpace (dfq : DuplexFlowQueue) : Int × DuplexFlowQueue :=
  let toReport : Int := ((dfq.recvCap : Int) - dfq.recvQueue.length) - dfq.reportedSpace
  if toReport ≤ 1 then
    (0, dfq)
  else
    (toReport, { dfq with reportedSpace := dfq.reportedSpace + toReport })

/-- The free receive space of a DFQ state. -/
def freeRecvSpace (dfq : DuplexFlowQueue) : Int :=
  (dfq.recvCap : Int) - dfq.recvQueue.length

/-- Sequential space invariant: `Deliver` (which enqueues and decrements the
reported space together) keeps the space reported to the peer at or below the
actual free receive space. -/
theorem deliver_preserves_spaceInvariant (dfq : DuplexFlowQueue)
    (c : Option (List Nat)) (h : dfq.reportedSpace ≤ dfq.freeRecvSpace) :
    (dfq.Deliver c).2.reportedSpace ≤ (dfq.Deliver c).2.freeRecvSpace := by
  unfold freeRecvSpace at *
  cases c with
  | none => simpa [Deliver]
  | some bytes =>
    cases hp : GetNextN16 bytes with
    | none => simpa [Deliver, hp]
    | some pr =>
      obtain ⟨addSpace, rest⟩ := pr
      simp only [Deliver, hp, addToSendSpace, decrementReportedRecvSpace]
      by_cases h0 : 0 < addSpace <;> by_cases he : rest = [] <;>
        simp only [h0, he, if_true, if_false, ite_true, ite_false] <;>
        first
          | omega
          | (split <;> simp <;> omega)

/-- Sequential space invariant is also preserved by `reportableRecvSpace`. -/
theorem reportableRecvSpace_preserves_spaceInvariant (dfq : DuplexFlowQueue)
    (h : dfq.reportedSpace ≤ dfq.freeRecvSpace) :
    (dfq.reportableRecvSpace).2.reportedSpace ≤ (dfq.reportableRecvSpace).2.freeRecvSpace := by
  unfold freeRecvSpace at *
  simp only [reportableRecvSpace]
  split <;> simp <;> omega

end DuplexFlowQueue

/-- C10: `DuplexFlowQueue.Deliver` called with a nil container returns the
malformed-data error immediately and leaves the whole state (sendSpace,
reportedSpace, recvQueue) unchanged. -/
theorem dfq_deliver_nil (dfq : DuplexFlowQueue) :
    dfq.Deliver none = (some TermError.malformedData, dfq) := rfl

/-- C1: `DuplexFlowQueue.Deliver` on a non-nil container with a well-formed
leading 16-bit-max varint `addSpace`: a positive `addSpace` is added to
`sendSpace`; a container holding no further data yields a nil result with
nothing enqueued; otherwise the container is enqueued and `reportedSpace`
decremented when `recvQueue` has a free slot, and `ErrQueueOverflow` is
returned with `recvQueue` unchanged when it is full. -/
theorem dfq_deliver_spec (dfq : DuplexFlowQueue) (bytes : List Nat)
    (addSpace : Nat) (rest : List Nat)
    (hparse : GetNextN16 bytes = some (addSpace, rest)) :
    (0 < addSpace →
      ((dfq.Deliver (some bytes)).2).sendSpace = dfq.sendSpace + addSpace) ∧
    (rest = [] →
      dfq.Deliver (some bytes) =
        (none, if 0 < addSpace then dfq.addToSendSpace addSpace else dfq)) ∧
    (rest ≠ [] → dfq.recvQueue.length < dfq.recvCap →
      (dfq.Deliver (some bytes)).1 = none ∧
      ((dfq.Deliver (some bytes)).2).recvQueue = dfq.recvQueue ++ [rest] ∧
      ((dfq.Deliver (some bytes)).2).reportedSpace = dfq.reportedSpace - 1) ∧
    (rest ≠ [] → ¬ dfq.recvQueue.length < dfq.recvCap →
      (dfq.Deliver (some bytes)).1 = some TermError.queueOverflow ∧
      ((dfq.Deliver (some bytes)).2).recvQueue = dfq.recvQueue) := by
  simp only [DuplexFlowQueue.Deliver, hparse, DuplexFlowQueue.addToSendSpace,
    DuplexFlowQueue.decrementReportedRecvSpace]
  refine ⟨?_, ?_, ?_, ?_⟩
  · intro h0
    by_cases he : rest = [] <;> simp [he, h0] <;> split <;> simp [h0]
  · intro he
    simp [he, DuplexFlowQueue.addToSendSpace]
  · intro he hfree
    by_cases h0 : 0 < addSpace <;> simp [he, h0, hfree]
  · intro he hfull
    by_cases h0 : 0 < addSpace <;> simp [he, h0, hfull]

/-- Witness for C1 at a concrete state and container. -/
theorem dfq_deliver_spec_witness :
    GetNextN16 [2, 9] = some (2, [9]) ∧ ([9] : List Nat) ≠ [] ∧ (1 < 3) ∧
    ((⟨5, 7, [[1]], 3⟩ : DuplexFlowQueue).Deliver (some [2, 9])).1 = none := by
  refine ⟨by decide, by decide, by decide, ?_⟩
  exact ((dfq_deliver_spec ⟨5, 7, [[1]], 3⟩ [2, 9] 2 [9] (by decide)).2.2.1
    (by decide) (by decide)).1

/-- C2: `reportableRecvSpace` with `toReport` the free receive space minus the
already-reported space: a `toReport ≤ 1` returns 0 and changes nothing, a
larger one is added to `reportedSpace` and returned; the call never returns 1,
and (given the sequential space invariant) the resulting `reportedSpace` never
exceeds the observed free receive space. -/
theorem dfq_reportableRecvSpace_spec (dfq : DuplexFlowQueue)
    (hinv : dfq.reportedSpace ≤ dfq.freeRecvSpace) :
    (dfq.freeRecvSpace - dfq.reportedSpace ≤ 1 →
      dfq.reportableRecvSpace = (0, dfq)) ∧
    (1 < dfq.freeRecvSpace - dfq.reportedSpace →
      dfq.reportableRecvSpace =
        (dfq.freeRecvSpace - dfq.reportedSpace,
         { dfq with reportedSpace :=
             dfq.reportedSpace + (dfq.freeRecvSpace - dfq.reportedSpace) })) ∧
    (dfq.reportableRecvSpace).1 ≠ 1 ∧
    (dfq.reportableRecvSpace).2.reportedSpace ≤ dfq.freeRecvSpace := by
  unfold DuplexFlowQueue.freeRecvSpace at *
  simp only [DuplexFlowQueue.reportableRecvSpace]
  refine ⟨?_, ?_, ?_, ?_⟩
  · intro h1
    simp [h1]
  · intro h1
    rw [if_neg (by omega)]
  · split <;> simp <;> omega
  · split <;> simp <;> omega

/-- Witness for C2 at a concrete state. -/
theorem dfq_reportableRecvSpace_spec_witness :
    (1 : Int) ≤ (⟨0, 1, [], 4⟩ : DuplexFlowQueue).freeRecvSpace ∧
    ((⟨0, 1, [], 4⟩ : DuplexFlowQueue).reportableRecvSpace).1 ≠ 1 := by
  refine ⟨by decide, ?_⟩
  exact (dfq_reportableRecvSpace_spec ⟨0, 1, [], 4⟩ (by decide)).2.2.1

/-- C7: `ParseIDType` inverts `AddIDType` for every 32-bit id with clear low
two bits and message type in `{Init, Data, Stop}`; in general a parsed
`ID|Type` varint splits into `type = idType mod 4` and `id = idType - type`. -/
theorem addIDType_parseIDType_spec :
    (∀ (c : List Nat) (id msgType : Nat),
      id % 4 = 0 → id < 2 ^ 32 →
      (msgType = MsgTypeInit ∨ msgType = MsgTypeData ∨ msgType = MsgTypeStop) →
      ParseIDType (AddIDType c id msgType) = some (id, msgType, c)) ∧
    (∀ (c : List Nat) (idType : Nat) (rest : List Nat),
      GetNextN32 c = some (idType, rest) →
      ParseIDType c = some (idType - idType % 4, idType % 4, rest)) := by
  constructor
  · intro c id msgType h4 h32 ht
    have htlt : msgType < 4 := by
      rcases ht with h | h | h <;> simp [h, MsgTypeInit, MsgTypeData, MsgTypeStop]
    have hor : id ||| msgType = id + msgType := by
      obtain ⟨k, hk⟩ : ∃ k, id = 4 * k := ⟨id / 4, by omega⟩
      subst hk
      exact lor_of_mod_four k msgType htlt
    have hsum : id + msgType < 2 ^ 32 := by omega
    simp only [ParseIDType, AddIDType, Pack32, GetNextN32, hor,
      Nat.mod_eq_of_lt hsum, decodeUvarint_encodeUvarint, hsum, if_true]
    have hm : (id + msgType) % 4 = msgType := by omega
    simp [hm]
  · intro c idType rest hp
    simp [ParseIDType, hp]

/-- Witness for C7 at a concrete id, type and container. -/
theorem addIDType_parseIDType_spec_witness :
    (8 % 4 = 0) ∧ (8 < 2 ^ 32) ∧
    ParseIDType (AddIDType [7] 8 MsgTypeData) = some (8, MsgTypeData, [7]) := by
  refine ⟨by decide, by decide, ?_⟩
  exact addIDType_parseIDType_spec.1 [7] 8 MsgTypeData (by decide) (by decide)
    (Or.inr (Or.inl rfl))

/-! ### Partially-blind access-token handler (access/token/pblind.go)

The elliptic-curve partially-blind signature library (rot256/pblind), the
DSD/CBOR codec (portbase/formats/dsd) and the randomness source are external
collaborators; they are abstracted as a bundle of oracle functions over
opaque types.  Go pointers (`*pblind.Signature`, `*pblind.Message3`,
`*pblind.StateRequester`, ...) are `Option`s; a nil-pointer dereference or an
out-of-range index is the `none` outcome of an `Option (Except ..)` result. -/

/-- `PBlindToken`: serial, 32-byte secret nonce, and the (nilable, Go pointer)
partially-blind signature. -/
structure PBlindToken (Sig : Type) where
  serial : Int
  token : List Nat
  signature : Option Sig
  deriving DecidableEq, Repr

/-- Transient per-slot client request state (`RequestState`): the secret token
nonce and the (nilable) pblind requester state. -/
structure RequestState (ReqState : Type) where
  token : List Nat
  state : Option ReqState

/-- Oracle bundle abstracting the external pblind library, the DSD/CBOR codec
and the randomness source. -/
structure PBlindCrypto (Info Sig Msg1 Msg2 Msg3 ReqState SignerState : Type) where
  packInt : Int → List Nat
  compressInfo : List Nat → Option Info
  check : Sig → Info → List Nat → Bool
  createRequester : Info → List Nat → Option ReqState
  procMsg1 : ReqState → Msg1 → Option ReqState
  createMsg2 : ReqState → Option Msg2
  procMsg2 : SignerState → Msg2 → Option SignerState
  createMsg3 : SignerState → Option Msg3
  procMsg3 : ReqState → Msg3 → Option ReqState
  getSig : ReqState → Option Sig
  randToken : Nat → List Nat
  shuffle : List (PBlindToken Sig) → List (PBlindToken Sig)
  unpackToken : List Nat → Option (PBlindToken Sig)
  packToken : PBlindToken Sig → Option (List Nat)
  deserializeStorage : List Nat → Option (List (PBlindToken Sig))
  serializeStorage : List (PBlindToken Sig) → Option (List Nat)

/-- The mutable state and options of a `PBlindHandler`. -/
structure PBlindHandler (Sig ReqState : Type) where
  zone : List Nat
  useSerials : Bool
  batchSize : Nat
  randomizeOrder : Bool
  hasSignalShouldRequest : Bool
  doubleSpend : Option (List Nat → Bool)
  storage : List (PBlindToken Sig)
  requestState : List (RequestState ReqState)

/-- An access token handed to the higher layer: zone name and packed data. -/
structure Token where
  zone : List Nat
  data : List Nat
  deriving DecidableEq, Repr

/-- Access-token error kinds. -/
inductive TokenError where
  | empty
  | zoneMismatch
  | tokenMalformed
  | tokenInvalid
  | tokenUsed
  | serializeFailed
  | deserializeFailed
  | infoFailed
  | batchSizeMismatch
  | missingData
  | signatureFailed
  | cryptoFailed
  deriving DecidableEq, Repr

/-- `container.AppendAsBlock`: a length-prefixed block. -/
def appendAsBlock (b : List Nat) : List Nat := encodeUvarint b.length ++ b

section PBlindOps

variable {Info Sig Msg1 Msg2 Msg3 ReqState SignerState : Type}

/-- `makeInfo`: gather the zone as a block plus (when serials are used) the
serial, and compress the data to a curve point via the pblind library. -/
def makeInfo (crypto : PBlindCrypto Info Sig Msg1 Msg2 Msg3 ReqState SignerState)
    (zone : List Nat) (useSerials : Bool) (serial : Int) : Option Info :=
  crypto.compressInfo
    (appendAsBlock zone ++ (if useSerials then crypto.packInt serial else []))

/-- `shouldRequest`: storage is empty or at or below the 10% boundary as the
code computes it (`BatchSize/len(Storage) > 10` with integer division). -/
def shouldRequest (pbh : PBlindHandler Sig ReqState) : Bool :=
  pbh.storage.length == 0 || decide (10 < pbh.batchSize / pbh.storage.length)

/-- `ShouldRequest`: the exported, locking wrapper of `shouldRequest`. -/
def ShouldRequest (pbh : PBlindHandler Sig ReqState) : Bool :=
  shouldRequest pbh

/-- `GetToken`: pop the head token, pack it, and signal the should-request
callback when it is installed and the popped storage is low.  Returns the
result, the new handler state and whether the callback fired. -/
def GetToken (crypto : PBlindCrypto Info Sig Msg1 Msg2 Msg3 ReqState SignerState)
    (pbh : PBlindHandler Sig ReqState) :
    Except TokenError Token × PBlindHandler Sig ReqState × Bool :=
  match pbh.storage with
  | [] => (.error .empty, pbh, false)
  | t :: rest =>
    match crypto.packToken t with
    | none => (.error .serializeFailed, pbh, false)
    | some data =>
      let pbh' := { pbh with storage := rest }
      (.ok ⟨pbh.zone, data⟩, pbh', pbh.hasSignalShouldRequest && shouldRequest pbh')

/-- `Verify`: zone match, unpack, serial range check, info recomputation,
signature check, optional double-spend check.  The `*t.Signature` dereference
panics (`none` outcome) when the unpacked token carries no signature. -/
def Verify (crypto : PBlindCrypto Info Sig Msg1 Msg2 Msg3 ReqState SignerState)
    (pbh : PBlindHandler Sig ReqState) (token : Token) :
    Option (Except TokenError Unit) :=
  if token.zone ≠ pbh.zone then some (.error .zoneMismatch)
  else
    match crypto.unpackToken token.data with
    | none => some (.error .tokenMalformed)
    | some t =>
      if (pbh.useSerials && decide (0 < t.serial) &&
            decide (t.serial ≤ (pbh.batchSize : Int))) ||
         (!pbh.useSerials && t.serial == 0) then
        match makeInfo crypto pbh.zone pbh.useSerials t.serial with
        | none => some (.error .tokenMalformed)
        | some info =>
          match t.signature with
          | none => none
          | some sig =>
            if !crypto.check sig info t.token then some (.error .tokenInvalid)
            else
              match pbh.doubleSpend with
              | some dsp =>
                if !dsp t.token then some (.error .tokenUsed) else some (.ok ())
              | none => some (.ok ())
      else some (.error .tokenMalformed)

/-- `Save`: serialize the current tokens; an empty storage is refused with
the token-empty error. -/
def Save (crypto : PBlindCrypto Info Sig Msg1 Msg2 Msg3 ReqState SignerState)
    (pbh : PBlindHandler Sig ReqState) : Except TokenError (List Nat) :=
  if pbh.storage.length = 0 then .error .empty
  else
    match crypto.serializeStorage pbh.storage with
    | none => .error .serializeFailed
    | some b => .ok b

/-- The signature re-check loop of `Load`; `none` models the nil-pointer panic
at `*t.Signature` for a deserialized token without a signature. -/
def checkLoaded (crypto : PBlindCrypto Info Sig Msg1 Msg2 Msg3 ReqState SignerState)
    (zone : List Nat) (useSerials : Bool) :
    List (PBlindToken Sig) → Option (Except TokenError Unit)
  | [] => some (.ok ())
  | t :: rest =>
    match makeInfo crypto zone useSerials t.serial with
    | none => some (.error .infoFailed)
    | some info =>
      match t.signature with
      | none => none
      | some sig =>
        if !crypto.check sig info t.token then some (.error .tokenInvalid)
        else checkLoaded crypto zone useSerials rest

/-- `Load`: deserialize a storage blob and re-check every signature before
adopting the loaded list as the new storage. -/
def Load (crypto : PBlindCrypto Info Sig Msg1 Msg2 Msg3 ReqState SignerState)
    (pbh : PBlindHandler Sig ReqState) (data : List Nat) :
    Option (Except TokenError (PBlindHandler Sig ReqState)) :=
  match crypto.deserializeStorage data with
  | none => some (.error .deserializeFailed)
  | some toks =>
    match checkLoaded crypto pbh.zone pbh.useSerials toks with
    | none => none
    | some (.error e) => some (.error e)
    | some (.ok ()) => some (.ok { pbh with storage := toks })

/-- A zero-valued request-state slot (the Go zero value of `RequestState`). -/
def emptyRequestState : RequestState ReqState := ⟨[], none⟩

/-- The per-slot loop of `CreateTokenRequest`, threading the slot index.
Returns the (always full-length) request-state slice as the loop leaves it
and either the built `Msg2` batch or the first error. -/
def buildRequest (crypto : PBlindCrypto Info Sig Msg1 Msg2 Msg3 ReqState SignerState)
    (zone : List Nat) (useSerials : Bool) :
    List (Option Msg1) → Nat →
    List (RequestState ReqState) × Except TokenError (List Msg2)
  | [], _ => ([], .ok [])
  | m :: ms, i =>
    match m with
    | none => (List.replicate (ms.length + 1) emptyRequestState, .error .missingData)
    | some msg1 =>
      let token := crypto.randToken i
      match makeInfo crypto zone useSerials ((i : Int) + 1) with
      | none =>
        (⟨token, none⟩ :: List.replicate ms.length emptyRequestState, .error .infoFailed)
      | some info =>
        match crypto.createRequester info token with
        | none =>
          (⟨token, none⟩ :: List.replicate ms.length emptyRequestState,
            .error .cryptoFailed)
        | some requester =>
          match crypto.procMsg1 requester msg1 with
          | none =>
            (⟨token, some requester⟩ :: List.replicate ms.length emptyRequestState,
              .error .cryptoFailed)
          | some requester' =>
            match crypto.createMsg2 requester' with
            | none =>
              (⟨token, some requester'⟩ :: List.replicate ms.length emptyRequestState,
                .error .cryptoFailed)
            | some msg2 =>
              let (rs, res) := buildRequest crypto zone useSerials ms (i + 1)
              (⟨token, some requester'⟩ :: rs,
                match res with
                | .error e => .error e
                | .ok msgs => .ok (msg2 :: msgs))

/-- `CreateTokenRequest`: check the setup batch size, reset the request state
and run the blinding loop.  The handler's storage is never touched. -/
def CreateTokenRequest
    (crypto : PBlindCrypto Info Sig Msg1 Msg2 Msg3 ReqState SignerState)
    (pbh : PBlindHandler Sig ReqState) (requestSetup : List (Option Msg1)) :
    Except TokenError (List Msg2) × PBlindHandler Sig ReqState :=
  if requestSetup.length ≠ pbh.batchSize then (.error .batchSizeMismatch, pbh)
  else
    let (rs, res) := buildRequest crypto pbh.zone pbh.useSerials requestSetup 0
    (res, { pbh with requestState := rs })

/-- The per-slot loop of `IssueTokens`.  A `none` result models the panic on a
nil signer state (`state.signers[i].ProcessMessage2` with nil receiver) or an
out-of-range index. -/
def issueLoop (crypto : PBlindCrypto Info Sig Msg1 Msg2 Msg3 ReqState SignerState) :
    List (Option SignerState) → List (Option Msg2) →
    Option (Except TokenError (List Msg3))
  | _, [] => some (.ok [])
  | [], _ :: _ => none
  | s :: ss, m :: ms =>
    match m with
    | none => some (.error .missingData)
    | some msg2 =>
      match s with
      | none => none
      | some signer =>
        match crypto.procMsg2 signer msg2 with
        | none => some (.error .cryptoFailed)
        | some signer' =>
          match crypto.createMsg3 signer' with
          | none => some (.error .cryptoFailed)
          | some msg3 =>
            match issueLoop crypto ss ms with
            | none => none
            | some (.error e) => some (.error e)
            | some (.ok msgs) => some (.ok (msg3 :: msgs))

/-- `IssueTokens`: check both batch sizes, then sign each requested token.
The handler's storage is never touched. -/
def IssueTokens (crypto : PBlindCrypto Info Sig Msg1 Msg2 Msg3 ReqState SignerState)
    (pbh : PBlindHandler Sig ReqState) (signers : List (Option SignerState))
    (requestMsgs : List (Option Msg2)) : Option (Except TokenError (List Msg3)) :=
  if requestMsgs.length ≠ pbh.batchSize then some (.error .batchSizeMismatch)
  else if signers.length ≠ pbh.batchSize then some (.error .batchSizeMismatch)
  else issueLoop crypto signers requestMsgs

/-- The per-slot loop of `ProcessIssuedTokens`, threading the slot index.
`none` models the panics: an out-of-range `requestState[i]` index, the
`*issuedTokens.Msgs[i]` dereference of a nil message slot, and the method
call on a nil requester state (in the order Go evaluates them). -/
def processLoop (crypto : PBlindCrypto Info Sig Msg1 Msg2 Msg3 ReqState SignerState)
    (zone : List Nat) (useSerials : Bool) :
    List (RequestState ReqState) → List (Option Msg3) → Nat →
    Option (Except TokenError (List (PBlindToken Sig)))
  | _, [], _ => some (.ok [])
  | [], _ :: _, _ => none
  | rs :: rss, m :: ms, i =>
    match m with
    | none => none
    | some msg3 =>
      match rs.state with
      | none => none
      | some st =>
        match crypto.procMsg3 st msg3 with
        | none => some (.error .cryptoFailed)
        | some st' =>
          match crypto.getSig st' with
          | none => some (.error .cryptoFailed)
          | some sig =>
            match makeInfo crypto zone useSerials ((i : Int) + 1) with
            | none => some (.error .infoFailed)
            | some info =>
              if !crypto.check sig info rs.token then some (.error .signatureFailed)
              else
                let newToken : PBlindToken Sig :=
                  ⟨if useSerials then (i : Int) + 1 else 0, rs.token, some sig⟩
                match processLoop crypto zone useSerials rss ms (i + 1) with
                | none => none
                | some (.error e) => some (.error e)
                | some (.ok toks) => some (.ok (newToken :: toks))

/-- `ProcessIssuedTokens`: check the batch size, finalize and locally verify
every issued token, optionally shuffle, and only then append the whole batch
to storage.  The deferred request-state reset runs on every non-panicking
path after the size check. -/
def ProcessIssuedTokens
    (crypto : PBlindCrypto Info Sig Msg1 Msg2 Msg3 ReqState SignerState)
    (pbh : PBlindHandler Sig ReqState) (issuedMsgs : List (Option Msg3)) :
    Option (Except TokenError Unit × PBlindHandler Sig ReqState) :=
  if issuedMsgs.length ≠ pbh.batchSize then some (.error .batchSizeMismatch, pbh)
  else
    match processLoop crypto pbh.zone pbh.useSerials pbh.requestState issuedMsgs 0 with
    | none => none
    | some (.error e) =>
      some (.error e,
        { pbh with requestState := List.replicate pbh.batchSize emptyRequestState })
    | some (.ok finalized) =>
      let finalized' := if pbh.randomizeOrder then crypto.shuffle finalized else finalized
      some (.ok (),
        { pbh with
            requestState := List.replicate pbh.batchSize emptyRequestState,
            storage := pbh.storage ++ finalized' })

end PBlindOps

/-! Concrete oracle instantiations used by witnesses and failing-input
evaluations. -/

/-- A trivial oracle bundle over `Unit` types. -/
def cryptoU : PBlindCrypto Unit Unit Unit Unit Unit Unit Unit where
  packInt _ := []
  compressInfo _ := some ()
  check _ _ _ := true
  createRequester _ _ := some ()
  procMsg1 _ _ := some ()
  createMsg2 _ := some ()
  procMsg2 _ _ := some ()
  createMsg3 _ := some ()
  procMsg3 _ _ := some ()
  getSig _ := some ()
  randToken _ := []
  shuffle l := l
  unpackToken _ := some ⟨0, [], some ()⟩
  packToken _ := some []
  deserializeStorage _ := some []
  serializeStorage _ := some []

/-- An oracle bundle whose deserializer yields a two-token list — the first
token without a signature, the second with one that fails `check` (every
`check` fails).  Realizable: a DSD/CBOR blob may omit the `S` field and a
pblind signature check may return false. -/
def cryptoCX : PBlindCrypto Nat Nat Unit Unit Unit Unit Unit where
  packInt _ := []
  compressInfo _ := some 0
  check _ _ _ := false
  createRequester _ _ := some ()
  procMsg1 _ _ := some ()
  createMsg2 _ := some ()
  procMsg2 _ _ := some ()
  createMsg3 _ := some ()
  procMsg3 _ _ := some ()
  getSig _ := some 0
  randToken _ := []
  shuffle l := l
  unpackToken _ := none
  packToken _ := some []
  deserializeStorage _ := some [⟨0, [], none⟩, ⟨0, [], some 0⟩]
  serializeStorage _ := some []

/-- A dummy stored token. -/
def tok0 : PBlindToken Unit := ⟨0, [], none⟩

/-- A handler with batch size 100 and exactly 10 stored tokens. -/
def h100 : PBlindHandler Unit Unit :=
  ⟨[], false, 100, false, true, none, List.replicate 10 tok0, []⟩

/-- A handler with non-empty storage, for the `Load` failing input. -/
def hCX : PBlindHandler Nat Unit := ⟨[], false, 2, false, false, none, [⟨1, [5], some 7⟩], []⟩

/-- A handler with batch size 1 and a filled request state, for the
`ProcessIssuedTokens` failing input. -/
def hC4 : PBlindHandler Nat Unit :=
  ⟨[], false, 1, false, false, none, [⟨1, [5], some 7⟩], [⟨[3], some ()⟩]⟩

/-- A handler with empty storage. -/
def hEmpty : PBlindHandler Unit Unit := ⟨[1], true, 4, false, false, none, [], []⟩

section PBlindTheorems

variable {Info Sig Msg1 Msg2 Msg3 ReqState SignerState : Type}

/-- C5: `Verify` on a zone mismatch returns the zone-mismatch error without
further checks; on a zone match with successfully unpacked token it returns a
token-malformed error whenever the serial fails the
`(useSerials ∧ 1 ≤ serial ≤ batchSize) ∨ (¬useSerials ∧ serial = 0)` rule. -/
theorem pblind_verify_spec
    (crypto : PBlindCrypto Info Sig Msg1 Msg2 Msg3 ReqState SignerState)
    (pbh : PBlindHandler Sig ReqState) (token : Token) :
    (token.zone ≠ pbh.zone →
      Verify crypto pbh token = some (.error .zoneMismatch)) ∧
    (∀ t : PBlindToken Sig, token.zone = pbh.zone →
      crypto.unpackToken token.data = some t →
      ¬ ((pbh.useSerials = true ∧ 1 ≤ t.serial ∧ t.serial ≤ (pbh.batchSize : Int)) ∨
         (pbh.useSerials = false ∧ t.serial = 0)) →
      Verify crypto pbh token = some (.error .tokenMalformed)) := by
  constructor
  · intro h
    simp [Verify, h]
  · intro t hz hu hser
    have hcond : ((pbh.useSerials && decide (0 < t.serial) &&
        decide (t.serial ≤ (pbh.batchSize : Int))) ||
        (!pbh.useSerials && t.serial == 0)) = false := by
      cases hus : pbh.useSerials <;> simp_all <;> omega
    simp [Verify, hz, hu, hcond]

/-- Witness for C5: a zone-mismatching token at a concrete handler. -/
theorem pblind_verify_spec_witness :
    (([2] : List Nat) ≠ ([1] : List Nat)) ∧
    Verify cryptoU hEmpty ⟨[2], []⟩ = some (.error .zoneMismatch) := by
  refine ⟨by decide, ?_⟩
  exact (pblind_verify_spec cryptoU hEmpty ⟨[2], []⟩).1 (by decide)

/-- C6 counterexample: at batch size 100 with exactly 10 stored tokens the
storage has dropped to exactly 10% of the batch size, yet `shouldRequest`
returns false — the claimed iff fails at this input. -/
theorem pblind_shouldRequest_counterexample :
    ¬ (shouldRequest h100 = true ↔
        (h100.storage = [] ∨ 10 * h100.storage.length ≤ h100.batchSize)) := by
  decide

/-- C6 (amended): `shouldRequest` (the check used both by `ShouldRequest` and
by `GetToken` after popping) returns true iff storage is empty or the stored
count is at or below `BatchSize/11`, i.e. `11·count ≤ BatchSize`; and the
check `GetToken` runs is exactly `shouldRequest` of the popped handler, gated
on the callback being installed. -/
theorem pblind_shouldRequest_spec (pbh : PBlindHandler Sig ReqState) :
    (shouldRequest pbh = true ↔
      (pbh.storage = [] ∨ 11 * pbh.storage.length ≤ pbh.batchSize)) ∧
    (ShouldRequest pbh = shouldRequest pbh) ∧
    (∀ (crypto : PBlindCrypto Info Sig Msg1 Msg2 Msg3 ReqState SignerState)
       (t : PBlindToken Sig) (rest : List (PBlindToken Sig)) (data : List Nat),
      pbh.storage = t :: rest → crypto.packToken t = some data →
      (GetToken crypto pbh).2.2 =
        (pbh.hasSignalShouldRequest && shouldRequest { pbh with storage := rest })) := by
  refine ⟨?_, rfl, ?_⟩
  · cases hs : pbh.storage with
    | nil => simp [shouldRequest, hs]
    | cons t rest =>
      simp only [shouldRequest, hs, List.length_cons, List.cons_ne_nil, false_or,
        Bool.or_eq_true, beq_iff_eq, Nat.succ_ne_zero, decide_eq_true_eq]
      rw [Nat.lt_iff_add_one_le, show 10 + 1 = 11 from rfl]
      exact Nat.le_div_iff_mul_le (Nat.succ_pos rest.length)
  · intro crypto t rest data hs hp
    simp [GetToken, hs, hp]

/-- Witness for C6 at the concrete 100/10 handler: popping a token leaves 9,
and the signal check equals `shouldRequest` of the popped handler. -/
theorem pblind_shouldRequest_spec_witness :
    h100.storage = tok0 :: List.replicate 9 tok0 ∧
    cryptoU.packToken tok0 = some [] ∧
    (GetToken cryptoU h100).2.2 =
      (h100.hasSignalShouldRequest &&
        shouldRequest { h100 with storage := List.replicate 9 tok0 }) := by
  refine ⟨by decide, rfl, ?_⟩
  exact (pblind_shouldRequest_spec h100).2.2 cryptoU tok0 (List.replicate 9 tok0) []
    (by decide) rfl

/-- C9: `Save` on an empty storage returns the token-empty error and no data;
every blob `Save` returns is the serialization of the (non-empty) storage, so
it contains at least one token. -/
theorem pblind_save_spec
    (crypto : PBlindCrypto Info Sig Msg1 Msg2 Msg3 ReqState SignerState)
    (pbh : PBlindHandler Sig ReqState) :
    (pbh.storage = [] → Save crypto pbh = .error .empty) ∧
    (∀ b, Save crypto pbh = .ok b →
      pbh.storage ≠ [] ∧ crypto.serializeStorage pbh.storage = some b) := by
  constructor
  · intro h
    simp [Save, h]
  · intro b hb
    unfold Save at hb
    by_cases h : pbh.storage.length = 0
    · simp [h] at hb
    · refine ⟨by simpa using h, ?_⟩
      rw [if_neg h] at hb
      cases hss : crypto.serializeStorage pbh.storage with
      | none => rw [hss] at hb; cases hb
      | some v => rw [hss] at hb; cases hb; rfl

/-- Witness for C9 at a concrete empty-storage handler. -/
theorem pblind_save_spec_witness :
    hEmpty.storage = [] ∧ Save cryptoU hEmpty = .error .empty :=
  ⟨rfl, (pblind_save_spec cryptoU hEmpty).1 rfl⟩

/-- C3 (failing input): a storage blob that deserializes to a token without a
signature followed by a token whose signature fails verification makes `Load`
dereference a nil `*pblind.Signature` — a runtime panic (`none`), not the
error return the claim states. -/
theorem pblind_load_nil_signature_panics :
    cryptoCX.deserializeStorage [9] = some [⟨0, [], none⟩, ⟨0, [], some 0⟩] ∧
    cryptoCX.check 0 0 [] = false ∧
    Load cryptoCX hCX [9] = none :=
  ⟨rfl, rfl, rfl⟩

/-- C4 (failing input): `ProcessIssuedTokens` given a batch of the correct
size whose only message slot is nil dereferences `*issuedTokens.Msgs[i]` — a
runtime panic (`none`), not the error return the claim states (its siblings
`CreateTokenRequest` and `IssueTokens` do check for nil slots). -/
theorem pblind_processIssuedTokens_nil_slot_panics :
    [(none : Option Unit)].length = hC4.batchSize ∧
    ProcessIssuedTokens cryptoCX hC4 [none] = none :=
  ⟨rfl, rfl⟩

end PBlindTheorems

/-! ### Bootstrap-hub URL parsing (hub package)

`ParseBootstrapHub` (in src) cleans a parsed transport and builds the
bootstrap Hub.  `ParseTransport` and `Transport.String` are hub-package code
not present under src and are modelled from the spec; `lhash.FromBase58` is
an external collaborator abstracted as a validity oracle, and stdlib
`net.ParseIP` is modelled for dotted-quad IPv4 addresses (any other host
yields `none`, as for domain names). -/

/-- A hub transport: protocol, host, port and the URL-fragment option. -/
structure Transport where
  protocol : List Char
  domain : List Char
  port : List Char
  option : List Char
  deriving DecidableEq, Repr

/-- Split a char list at the first occurrence of the sequence `://`. -/
def splitScheme : List Char → Option (List Char × List Char)
  | [] => none
  | c :: cs =>
    if c = ':' ∧ cs.take 2 = ['/', '/'] then some ([], cs.drop 2)
    else
      match splitScheme cs with
      | some (pre, post) => some (c :: pre, post)
      | none => none

/-- Split a char list at the first occurrence of a character; the second
component is `none` when the character does not occur. -/
def splitFirstChar (ch : Char) : List Char → List Char × Option (List Char)
  | [] => ([], none)
  | c :: cs =>
    if c = ch then ([], some cs)
    else
      let (l, r) := splitFirstChar ch cs
      (c :: l, r)

/-- Split a char list at the last colon (host:port split). -/
def splitLastColon : List Char → Option (List Char × List Char)
  | [] => none
  | c :: cs =>
    match splitLastColon cs with
    | some (d, p) => some (c :: d, p)
    | none => if c = ':' then some ([], cs) else none

/-- Modelled from the spec: `hub.ParseTransport` (not under src) for
transport URLs of the bootstrap form
`<protocol>://<host>:<port>[/#<option>]` — the fragment after `/#` is the
transport option carrying the base58 hub ID. -/
def ParseTransport (s : List Char) : Option Transport :=
  match splitScheme s with
  | none => none
  | some (scheme, rest) =>
    if scheme = [] then none
    else
      let (hostport, path) := splitFirstChar '/' rest
      let opt : List Char :=
        match path with
        | some ('#' :: frag) => frag
        | _ => []
      match splitLastColon hostport with
      | none => none
      | some (domain, port) => some ⟨scheme, domain, port, opt⟩

/-- Modelled from the spec: `Transport.String` (not under src) — with an empty
domain and option it renders as `tcp://:17`. -/
def transportString (t : Transport) : List Char :=
  t.protocol ++ [':', '/', '/'] ++ t.domain ++ [':'] ++ t.port ++
    (if t.option = [] then [] else ['/', '#'] ++ t.option)

/-- A parsed IP address; `v6` stands for any non-IPv4 address form. -/
inductive IPAddr where
  | v4 (a b c d : Nat)
  | v6 (raw : List Nat)
  deriving DecidableEq, Repr

/-- Split a char list on every occurrence of a character. -/
def splitOnChar (ch : Char) : List Char → List (List Char)
  | [] => [[]]
  | c :: cs =>
    let r := splitOnChar ch cs
    if c = ch then [] :: r
    else
      match r with
      | [] => [[c]]
      | h :: t => (c :: h) :: t

/-- Parse a decimal IPv4 octet (up to 3 digits, value at most 255). -/
def parseOctet (cs : List Char) : Option Nat :=
  if cs ≠ [] ∧ cs.length ≤ 3 ∧ cs.all Char.isDigit then
    let v := cs.foldl (fun acc c => acc * 10 + (c.toNat - 48)) 0
    if v ≤ 255 then some v else none
  else none

/-- Stdlib `net.ParseIP`, modelled for dotted-quad IPv4 addresses; everything
else (domain names in particular) yields `none`. -/
def parseIP (s : List Char) : Option IPAddr :=
  match splitOnChar '.' s with
  | [a, b, c, d] =>
    match parseOctet a, parseOctet b, parseOctet c, parseOctet d with
    | some x, some y, some z, some w => some (.v4 x y z w)
    | _, _, _, _ => none
  | _ => none

/-- The subset of a Hub `Announcement` that bootstrap parsing fills. -/
structure Announcement where
  id : List Char
  transports : List (List Char)
  ipv4 : Option IPAddr
  ipv6 : Option IPAddr
  deriving DecidableEq, Repr

/-- A bootstrap Hub: ID, map name, and announcement info. -/
structure Hub where
  id : List Char
  map : List Char
  info : Announcement
  deriving DecidableEq, Repr

/-- Error kinds of `ParseBootstrapHub`. -/
inductive HubParseError where
  | transportInvalid
  | missingHubID
  | invalidHubID
  | invalidIP
  deriving DecidableEq, Repr

/-- `ParseBootstrapHub`: parse the transport, require and validate the base58
hub-ID fragment, require an IP host, then strip host and fragment from the
transport and build the Hub (the IP goes to IPv4 or IPv6 by `To4`). -/
def ParseBootstrapHub (validLHash : List Char → Bool)
    (bootstrapTransport mapName : List Char) : Except HubParseError Hub :=
  match ParseTransport bootstrapTransport with
  | none => .error .transportInvalid
  | some t =>
    if t.option = [] then .error .missingHubID
    else if !validLHash t.option then .error .invalidHubID
    else
      match parseIP t.domain with
      | none => .error .invalidIP
      | some ip =>
        let id := t.option
        let t' : Transport := { t with domain := [], option := [] }
        let base : Hub :=
          { id := id, map := mapName,
            info := { id := id, transports := [transportString t'],
                      ipv4 := none, ipv6 := none } }
        match ip with
        | .v4 a b c d =>
          .ok { base with info := { base.info with ipv4 := some (.v4 a b c d) } }
        | .v6 raw =>
          .ok { base with info := { base.info with ipv6 := some (.v6 raw) } }

/-- C8: for every valid base58 labeled-hash fragment, parsing the bootstrap
transport string `tcp://1.2.3.4:17/#<fragment>` yields a Hub whose ID is the
hub-ID carried in the fragment, whose Info.IPv4 is 1.2.3.4 and whose only
transport is `tcp://:17` (no host, no fragment); a missing fragment, an
invalid fragment, or a non-IP host each yield an error. -/
theorem parseBootstrapHub_spec :
    (∀ (validLHash : List Char → Bool) (frag mapName : List Char),
      frag ≠ [] → validLHash frag = true →
      ParseBootstrapHub validLHash ("tcp://1.2.3.4:17/#".data ++ frag) mapName =
        .ok { id := frag, map := mapName,
              info := { id := frag, transports := ["tcp://:17".data],
                        ipv4 := some (.v4 1 2 3 4), ipv6 := none } }) ∧
    (∀ (validLHash : List Char → Bool) (s mapName : List Char) (t : Transport),
      ParseTransport s = some t → t.option = [] →
      ParseBootstrapHub validLHash s mapName = .error .missingHubID) ∧
    (∀ (validLHash : List Char → Bool) (s mapName : List Char) (t : Transport),
      ParseTransport s = some t → t.option ≠ [] → validLHash t.option = false →
      ParseBootstrapHub validLHash s mapName = .error .invalidHubID) ∧
    (∀ (validLHash : List Char → Bool) (s mapName : List Char) (t : Transport),
      ParseTransport s = some t → t.option ≠ [] → validLHash t.option = true →
      parseIP t.domain = none →
      ParseBootstrapHub validLHash s mapName = .error .invalidIP) := by
  refine ⟨?_, ?_, ?_, ?_⟩
  · intro validLHash frag mapName hfrag hvl
    have ht : ParseTransport ("tcp://1.2.3.4:17/#".data ++ frag) =
        some ⟨"tcp".data, "1.2.3.4".data, "17".data, frag⟩ := rfl
    have hip : parseIP ("1.2.3.4".data) = some (.v4 1 2 3 4) := rfl
    simp only [ParseBootstrapHub, ht, hip, if_neg hfrag, hvl, Bool.not_true,
      Bool.false_eq_true, if_false, ite_false]
    rfl
  · intro validLHash s mapName t ht hopt
    simp [ParseBootstrapHub, ht, hopt]
  · intro validLHash s mapName t ht hopt hvl
    simp [ParseBootstrapHub, ht, hopt, hvl]
  · intro validLHash s mapName t ht hopt hvl hip
    simp [ParseBootstrapHub, ht, hopt, hvl, hip]

/-- Witness for C8 at the fragment `abc` with an always-valid hash oracle. -/
theorem parseBootstrapHub_spec_witness :
    ("abc".data ≠ ([] : List Char)) ∧
    ParseBootstrapHub (fun _ => true) ("tcp://1.2.3.4:17/#".data ++ "abc".data) [] =
      .ok { id := "abc".data, map := [],
            info := { id := "abc".data, transports := ["tcp://:17".data],
                      ipv4 := some (.v4 1 2 3 4), ipv6 := none } } := by
  refine ⟨by decide, ?_⟩
  exact parseBootstrapHub_spec.1 (fun _ => true) ("abc".data) [] (by decide) rfl

end SPN
